import Mathlib

set_option maxRecDepth 10000

/-!
Shallow embedding of `src/stock_outlier.py` (class `StockOutlierChecker`).

The pandas DataFrame owned by the checker is modelled as a `List Row`, one
`Row` per data row: `date` models the DataFrame index (the "Date" column
after `set_df_index_to_date`), `price` the "Price" column, `diff` the
"Rolling Difference" column (`none` = the NaN the rolling window leaves on
the first row) and `pcnt` the "Pcnt Change" column.  Float column entries
that can be NaN or infinite are modelled by `PcntVal`: finite values are
exact rationals, with explicit `nan` / `posInf` / `negInf` constructors
mirroring IEEE division results.
-/

namespace StockOutlier

/-- A "Pcnt Change" column entry: a float that is NaN, +inf, -inf or finite. -/
inductive PcntVal where
  | nan : PcntVal
  | posInf : PcntVal
  | negInf : PcntVal
  | val (q : ℚ) : PcntVal
deriving DecidableEq, Repr

/-- Float division `d / q` for finite `d`, `q`, as pandas performs it when
computing `"Rolling Difference" / Price.shift(1)`: a nonzero denominator
gives the exact quotient; a zero denominator gives +inf / -inf by the sign
of the numerator and NaN for `0 / 0`. -/
def fdiv (d q : ℚ) : PcntVal :=
  if q ≠ 0 then .val (d / q)
  else if 0 < d then .posInf
  else if d < 0 then .negInf
  else .nan

/-- `abs (x) > tol` on a float column entry, as pandas evaluates it in
`identify_outliers`: NaN compares false, infinities compare true. -/
def absGT : PcntVal → ℚ → Bool
  | .nan, _ => false
  | .posInf, _ => true
  | .negInf, _ => true
  | .val q, tol => decide (tol < |q|)

/-- One row of the checker's DataFrame. -/
structure Row where
  date : ℤ
  price : ℚ
  diff : Option ℚ
  pcnt : PcntVal
deriving DecidableEq, Repr

/-- The mutable state of a `StockOutlierChecker` instance: `df` is
`self.df`, `outliers` is `self.outliers` (`none` models Python `None`). -/
structure SOState where
  df : List Row
  outliers : Option (List Row)
deriving DecidableEq, Repr

/-! ## take_first_difference -/

/-- The "Rolling Difference" column:
`df["Price"].rolling(window=2).apply(lambda x: x.iloc[1] - x.iloc[0])`.
Each price is paired with the price one step back (`none :: prices.map some`
is the shifted column, NaN at the front); the window of two gives NaN on the
first row and `price[i] - price[i-1]` afterwards. -/
def rollingDiff (prices : List ℚ) : List (Option ℚ) :=
  (prices.zip (none :: prices.map some)).map (fun pq => pq.2.map (fun q => pq.1 - q))

/-- The "Pcnt Change" column:
`df["Rolling Difference"] / df["Price"].shift(1)`.
A NaN in either operand (first row of either column) propagates to NaN;
otherwise the entry is the float quotient `fdiv`. -/
def pcntChange (prices : List ℚ) : List PcntVal :=
  ((rollingDiff prices).zip (none :: prices.map some)).map
    (fun dq =>
      match dq.1, dq.2 with
      | some d, some q => fdiv d q
      | _, _ => .nan)

/-- `take_first_difference`: attach the "Rolling Difference" and
"Pcnt Change" columns to a date-indexed price series. -/
def take_first_difference (s : List (ℤ × ℚ)) : List Row :=
  (s.zip ((rollingDiff (s.map Prod.snd)).zip (pcntChange (s.map Prod.snd)))).map
    (fun t => ⟨t.1.1, t.1.2, t.2.1, t.2.2⟩)

/-! ## identify_outliers -/

/-- Each row of `df` paired with the "Pcnt Change" value of the row before
it: this is the column `df["Pcnt Change"].shift(1)` (NaN on the first row)
laid beside the rows it belongs to. -/
def prevs (df : List Row) : List (Row × PcntVal) :=
  df.zip (.nan :: df.map Row.pcnt)

/-- `pd.concat([m, l])` where the first operand may be Python `None`
(pandas drops a `None` entry of the list). -/
def pdConcat : Option (List Row) → List Row → List Row
  | none, l => l
  | some m, l => m ++ l

/-- `identify_outliers(acceptable_pcnt_change)`: resets `self.outliers` to
`None`, takes the rows whose absolute "Pcnt Change" exceeds the tolerance
(`temp_outliers`), takes the rows whose *previous* row's "Pcnt Change"
exceeds it (`complementary_change`, via `shift(1)`), and stores
`pd.concat([self.outliers, temp_outliers[~temp_outliers.index.isin(complementary_change.index)]])`. -/
def identify_outliers (s : SOState) (tol : ℚ) : SOState :=
  let s1 : SOState := { s with outliers := none }
  let temp_outliers := s1.df.filter (fun r => absGT r.pcnt tol)
  let complementary_change :=
    ((prevs s1.df).filter (fun p => absGT p.2 tol)).map Prod.fst
  { s1 with
    outliers := some (pdConcat s1.outliers
      (temp_outliers.filter
        (fun r => !(complementary_change.any (fun c => c.date == r.date))))) }

/-- The outlier rule as the specification words it: a row is flagged exactly
when its own absolute percent change exceeds the tolerance and the
immediately preceding row's does not (candidates minus rebounds). -/
def flagged_by_rule (df : List Row) (tol : ℚ) : List Row :=
  ((prevs df).filter (fun p => absGT p.1.pcnt tol && !(absGT p.2 tol))).map Prod.fst

/-! ## clean_stock_data -/

/-- `clean_stock_data`: `self.df = self.df[~self.df.index.isin(self.outliers.index)]` —
keep the rows whose index value occurs in no outlier row. -/
def clean_stock_data (df : List Row) (outliers : List Row) : List Row :=
  df.filter (fun r => !(outliers.any (fun o => o.date == r.date)))

/-! ## Positional lemmas about the derived columns -/

/-- Entry `i` of a zip, in terms of the entries of the two lists. -/
theorem zip_getElem? {α β : Type} (l1 : List α) (l2 : List β) (i : ℕ) :
    (l1.zip l2)[i]? = l1[i]?.bind (fun a => l2[i]?.map (Prod.mk a)) := by
  induction l1 generalizing l2 i with
  | nil => simp
  | cons a t ih =>
    cases l2 with
    | nil => simp
    | cons b u =>
      cases i with
      | zero => simp
      | succ j => simpa using ih u j

/-- Row `i+1` of the DataFrame after `take_first_difference`, as a function
of rows `i` and `i+1` of the input series only. -/
theorem take_first_difference_getElem?_succ (s : List (ℤ × ℚ)) (i : ℕ) :
    (take_first_difference s)[i+1]? =
      s[i]?.bind (fun prev => s[i+1]?.map (fun cur =>
        ⟨cur.1, cur.2, some (cur.2 - prev.2), fdiv (cur.2 - prev.2) prev.2⟩)) := by
  cases hprev : s[i]? <;> cases hcur : s[i+1]? <;>
    simp [take_first_difference, rollingDiff, pcntChange, zip_getElem?, hprev, hcur]

/-- Row `0` of the DataFrame after `take_first_difference`: both derived
columns are NaN on the first row. -/
theorem take_first_difference_getElem?_zero (s : List (ℤ × ℚ)) :
    (take_first_difference s)[0]? =
      s[0]?.map (fun dp => ⟨dp.1, dp.2, none, .nan⟩) := by
  cases h : s[0]? <;>
    simp [take_first_difference, rollingDiff, pcntChange, zip_getElem?, h]

/-- C3: for every series, `take_first_difference` sets, for each point
`i > 0`, `difference[i] = price[i] - price[i-1]` and
`percent_change[i] = difference[i] / price[i-1]`; point 0 gets NaN for
both; and row `i` of the result depends only on points `i-1` and `i` of
the series, so mutating or removing any later point leaves it unchanged. -/
theorem take_first_difference_correct :
    (∀ (s : List (ℤ × ℚ)) (i : ℕ) (di dj : ℤ) (pi pj : ℚ),
        s[i]? = some (di, pi) → s[i+1]? = some (dj, pj) →
        (take_first_difference s)[i+1]? =
          some ⟨dj, pj, some (pj - pi), fdiv (pj - pi) pi⟩)
    ∧ (∀ (s : List (ℤ × ℚ)) (d : ℤ) (p : ℚ), s[0]? = some (d, p) →
        (take_first_difference s)[0]? = some ⟨d, p, none, .nan⟩)
    ∧ (∀ (s t : List (ℤ × ℚ)) (i : ℕ),
        (∀ j : ℕ, (j = i ∨ j + 1 = i) → s[j]? = t[j]?) →
        (take_first_difference s)[i]? = (take_first_difference t)[i]?) := by
  refine ⟨?_, ?_, ?_⟩
  · intro s i di dj pi pj hprev hcur
    rw [take_first_difference_getElem?_succ, hprev, hcur]
    rfl
  · intro s d p h
    rw [take_first_difference_getElem?_zero, h]
    rfl
  · intro s t i h
    cases i with
    | zero =>
      rw [take_first_difference_getElem?_zero, take_first_difference_getElem?_zero,
        h 0 (Or.inl rfl)]
    | succ k =>
      rw [take_first_difference_getElem?_succ, take_first_difference_getElem?_succ,
        h (k + 1) (Or.inl rfl), h k (Or.inr rfl)]

/-- Witness for C3 at the concrete series `[(1, 100), (2, 110)]`. -/
theorem take_first_difference_correct_witness :
    (take_first_difference [((1:ℤ), (100:ℚ)), (2, 110)])[1]? =
        some ⟨2, 110, some (110 - 100), fdiv (110 - 100) 100⟩
    ∧ (take_first_difference [((1:ℤ), (100:ℚ)), (2, 110)])[0]? =
        some ⟨1, 100, none, .nan⟩ :=
  ⟨take_first_difference_correct.1 [(1, 100), (2, 110)] 0 1 2 100 110 rfl rfl,
   take_first_difference_correct.2.1 [(1, 100), (2, 110)] 1 100 rfl⟩

/-- C8: `percent_change[i]` is +infinity or -infinity when
`price[i-1] = 0` and the difference is nonzero, and NaN when both are
zero, mirroring floating-point division; in particular for prices
`[0, 600, 800, 1200]` the difference column is `[NaN, 600, 200, 400]` and
the percent-change column is `[NaN, +inf, 1/3, 1/2]`. -/
theorem pcnt_change_division_semantics :
    (∀ (s : List (ℤ × ℚ)) (i : ℕ) (d0 dj : ℤ) (pj : ℚ),
        s[i]? = some (d0, 0) → s[i+1]? = some (dj, pj) →
        (take_first_difference s)[i+1]? =
          some ⟨dj, pj, some pj,
            if 0 < pj then .posInf else if pj < 0 then .negInf else .nan⟩)
    ∧ take_first_difference [((1:ℤ), (0:ℚ)), (2, 600), (3, 800), (4, 1200)] =
        [⟨1, 0, none, .nan⟩, ⟨2, 600, some 600, .posInf⟩,
         ⟨3, 800, some 200, .val (1/3)⟩, ⟨4, 1200, some 400, .val (1/2)⟩] := by
  constructor
  · intro s i d0 dj pj hprev hcur
    rw [take_first_difference_getElem?_succ, hprev, hcur]
    simp [fdiv, sub_zero]
  · with_unfolding_all decide

/-- Witness for C8 at the concrete series `[(1, 0), (2, 600)]`. -/
theorem pcnt_change_division_semantics_witness :
    (take_first_difference [((1:ℤ), (0:ℚ)), (2, 600)])[1]? =
      some ⟨2, 600, some 600, if (0:ℚ) < 600 then .posInf
        else if (600:ℚ) < 0 then .negInf else .nan⟩ :=
  pcnt_change_division_semantics.1 [(1, 0), (2, 600)] 0 1 2 600 rfl rfl

/-! ## identify_outliers: the detection rule -/

/-- Forgetting the shifted column recovers the DataFrame. -/
theorem prevs_map_fst (df : List Row) : (prevs df).map Prod.fst = df :=
  List.map_fst_zip _ _ (by simp)

/-- With pairwise-distinct dates, a row of the DataFrame determines its
position, hence also the shifted percent-change value paired with it. -/
theorem prevs_nodup_inj {df : List Row} (h : (df.map Row.date).Nodup)
    {r c : Row} {v w : PcntVal} (hr : (r, v) ∈ prevs df) (hc : (c, w) ∈ prevs df)
    (hdate : c.date = r.date) : c = r ∧ w = v := by
  obtain ⟨i, hi⟩ := List.mem_iff_getElem?.mp hr
  obtain ⟨j, hj⟩ := List.mem_iff_getElem?.mp hc
  rw [prevs, zip_getElem?] at hi hj
  obtain ⟨a, ha, hx⟩ := Option.bind_eq_some.mp hi
  obtain ⟨x, hx1, hx2⟩ := Option.map_eq_some'.mp hx
  obtain ⟨b, hb, hy⟩ := Option.bind_eq_some.mp hj
  obtain ⟨y, hy1, hy2⟩ := Option.map_eq_some'.mp hy
  injection hx2 with hx3 hx4
  injection hy2 with hy3 hy4
  subst hx3; subst hx4; subst hy3; subst hy4
  obtain ⟨hi2, hival⟩ := List.getElem?_eq_some_iff.mp ha
  obtain ⟨hj2, hjval⟩ := List.getElem?_eq_some_iff.mp hb
  have hij : i = j := by
    have hmi : i < (df.map Row.date).length := by simpa using hi2
    have hmj : j < (df.map Row.date).length := by simpa using hj2
    refine (@List.Nodup.getElem_inj_iff _ _ h i hmi j hmj).mp ?_
    simp only [List.getElem_map]
    rw [hival, hjval, hdate]
  subst hij
  rw [hival] at hjval
  rw [hx1] at hy1
  exact ⟨hjval.symm, (Option.some_injective _ hy1).symm⟩

/-- With pairwise-distinct dates, a row's index value occurs among the
`complementary_change` indices exactly when the row's own previous
percent-change exceeds the tolerance. -/
theorem complementary_any_eq {df : List Row} (h : (df.map Row.date).Nodup)
    (tol : ℚ) {r : Row} {v : PcntVal} (hrv : (r, v) ∈ prevs df) :
    ((((prevs df).filter (fun p => absGT p.2 tol)).map Prod.fst).any
      (fun c => c.date == r.date)) = absGT v tol := by
  cases hv : absGT v tol with
  | true =>
    apply List.any_eq_true.mpr
    refine ⟨r, List.mem_map.mpr ⟨(r, v), List.mem_filter.mpr ⟨hrv, hv⟩, rfl⟩, by simp⟩
  | false =>
    by_contra hne
    have hany : ((((prevs df).filter (fun p => absGT p.2 tol)).map Prod.fst).any
        (fun c => c.date == r.date)) = true := by
      revert hne
      cases ((((prevs df).filter (fun p => absGT p.2 tol)).map Prod.fst).any
        (fun c => c.date == r.date)) <;> simp
    obtain ⟨c, hcmem, hcdate⟩ := List.any_eq_true.mp hany
    obtain ⟨⟨c1, w⟩, hcw, hc1⟩ := List.mem_map.mp hcmem
    obtain ⟨hcw1, hcw2⟩ := List.mem_filter.mp hcw
    subst hc1
    obtain ⟨-, hwv⟩ := prevs_nodup_inj h hcw1 hrv ((beq_iff_eq.mp hcdate).symm)
    have h2 : absGT w tol = true := by simpa using hcw2
    rw [← hwv] at h2
    rw [hv] at h2
    exact Bool.noConfusion h2

/-- The concrete percent-change DataFrame used by the repository's unit
tests for `identify_outliers`: dates 1..10, percent changes
`[NaN, -0.011, 0.01, 0.4, -0.37, -0.02, -1.1, 1.0, 0.01, -0.01]`, prices
`[100, 99, 101, 140, 102, 101, 2, 102, 102.3, 101.9]` (no "Rolling
Difference" column is attached, as in the test). -/
def outlier_test_df : List Row :=
  [⟨1, 100, none, .nan⟩,
   ⟨2, 99, none, .val (-(11/1000))⟩,
   ⟨3, 101, none, .val (1/100)⟩,
   ⟨4, 140, none, .val (2/5)⟩,
   ⟨5, 102, none, .val (-(37/100))⟩,
   ⟨6, 101, none, .val (-(1/50))⟩,
   ⟨7, 2, none, .val (-(11/10))⟩,
   ⟨8, 102, none, .val 1⟩,
   ⟨9, 1023/10, none, .val (1/100)⟩,
   ⟨10, 1019/10, none, .val (-(1/100))⟩]

/-- C1: for every series with distinct timestamps and computed
percent-change column, `identify_outliers(t)` flags exactly the rows whose
absolute percent change exceeds `t` and whose immediately preceding row's
does not (candidates minus rebounds); in particular, on the percent-change
sequence `[NaN, -0.011, 0.01, 0.4, -0.37, -0.02, -1.1, 1.0, 0.01, -0.01]`
at timestamps 1..10 it flags exactly timestamps `[4, 7]`. -/
theorem identify_outliers_flags_candidates_minus_rebounds :
    (∀ (df : List Row) (o : Option (List Row)) (tol : ℚ),
        (df.map Row.date).Nodup →
        (identify_outliers ⟨df, o⟩ tol).outliers = some (flagged_by_rule df tol))
    ∧ (identify_outliers ⟨outlier_test_df, none⟩ (5/100)).outliers.map
        (fun l => l.map Row.date) = some [4, 7] := by
  constructor
  · intro df o tol h
    have step : ∀ (q : Row → Bool),
        df.filter q = ((prevs df).filter (q ∘ Prod.fst)).map Prod.fst := by
      intro q
      conv_lhs => rw [← prevs_map_fst df]
      rw [List.filter_map]
    simp only [identify_outliers, pdConcat, Option.some.injEq]
    rw [List.filter_filter, step, flagged_by_rule]
    refine congrArg (List.map Prod.fst) ?_
    apply List.filter_congr
    intro p hp
    obtain ⟨r, v⟩ := p
    dsimp only [Function.comp_apply]
    rw [complementary_any_eq h tol hp]
    exact Bool.and_comm _ _
  · with_unfolding_all decide

/-- Witness for C1: the test DataFrame has pairwise-distinct dates, and
the stored outlier rows are exactly those of the candidates-minus-rebounds
rule. -/
theorem identify_outliers_flags_candidates_minus_rebounds_witness :
    (identify_outliers ⟨outlier_test_df, none⟩ (5/100)).outliers
      = some (flagged_by_rule outlier_test_df (5/100)) :=
  identify_outliers_flags_candidates_minus_rebounds.1 outlier_test_df none (5/100)
    (by with_unfolding_all decide)

/-! ## The first point is never flagged -/

/-- If the first row's percent change does not pass the candidate test
(as when it is NaN), the stored outliers form a sublist of the DataFrame
without its first row. -/
theorem identify_outliers_sublist (df : List Row) (o : Option (List Row)) (tol : ℚ)
    (h0 : ∀ r, df[0]? = some r → absGT r.pcnt tol = false) :
    List.Sublist ((identify_outliers ⟨df, o⟩ tol).outliers.getD []) (df.drop 1) := by
  cases df with
  | nil => simp [identify_outliers, pdConcat]
  | cons a t =>
    have ha : absGT a.pcnt tol = false := h0 a (by simp)
    simp only [identify_outliers, pdConcat, Option.getD_some]
    rw [List.filter_cons_of_neg (by simp [ha])]
    exact (List.filter_sublist _).trans (List.filter_sublist _)

/-- The index of the DataFrame built by `take_first_difference` is the
series' timestamp column. -/
theorem take_first_difference_map_date (s : List (ℤ × ℚ)) :
    (take_first_difference s).map Row.date = s.map Prod.fst := by
  have hlen : s.length ≤
      ((rollingDiff (s.map Prod.snd)).zip (pcntChange (s.map Prod.snd))).length := by
    simp only [List.length_zip, rollingDiff, pcntChange, List.length_map, List.length_cons]
    omega
  calc (take_first_difference s).map Row.date
      = ((s.zip ((rollingDiff (s.map Prod.snd)).zip
          (pcntChange (s.map Prod.snd)))).map Prod.fst).map Prod.fst := by
        simp only [take_first_difference, List.map_map]
        rfl
    _ = s.map Prod.fst := by rw [List.map_fst_zip _ _ hlen]

/-- C4: after any `identify_outliers` call on the derived DataFrame of a
series, the stored outliers form a sublist of the rows after the first, so
the first point of a non-empty series (whose percent change is NaN) is
never flagged: with distinct timestamps its timestamp is not among the
outlier dates. -/
theorem first_point_never_flagged :
    (∀ (s : List (ℤ × ℚ)) (o : Option (List Row)) (tol : ℚ),
        List.Sublist
          ((identify_outliers ⟨take_first_difference s, o⟩ tol).outliers.getD [])
          ((take_first_difference s).drop 1))
    ∧ (∀ (s : List (ℤ × ℚ)) (o : Option (List Row)) (tol : ℚ) (d0 : ℤ) (p0 : ℚ),
        s[0]? = some (d0, p0) → (s.map Prod.fst).Nodup →
        d0 ∉ ((identify_outliers ⟨take_first_difference s, o⟩ tol).outliers.getD
          []).map Row.date) := by
  have key : ∀ (s : List (ℤ × ℚ)) (o : Option (List Row)) (tol : ℚ),
      List.Sublist
        ((identify_outliers ⟨take_first_difference s, o⟩ tol).outliers.getD [])
        ((take_first_difference s).drop 1) := by
    intro s o tol
    apply identify_outliers_sublist
    intro r hr
    rw [take_first_difference_getElem?_zero] at hr
    obtain ⟨dp, hdp, hr2⟩ := Option.map_eq_some'.mp hr
    rw [← hr2]
    rfl
  refine ⟨key, ?_⟩
  intro s o tol d0 p0 h0 hnodup hmem
  have hsub := (key s o tol).map Row.date
  rw [List.map_drop, take_first_difference_map_date] at hsub
  cases s with
  | nil => simp at h0
  | cons hd tl =>
    have hhd : hd = (d0, p0) := by simpa using h0
    subst hhd
    have hd0 : d0 ∉ tl.map Prod.fst := (List.nodup_cons.mp (by simpa using hnodup)).1
    have hd1 : d0 ∈ tl.map Prod.fst := by simpa using hsub.subset hmem
    exact hd0 hd1

/-- Witness for C4 at the concrete series `[(1, 100), (2, 140)]`. -/
theorem first_point_never_flagged_witness :
    (1:ℤ) ∉ ((identify_outliers
        ⟨take_first_difference [((1:ℤ), (100:ℚ)), (2, 140)], none⟩
        (1/20)).outliers.getD []).map Row.date :=
  first_point_never_flagged.2 [(1, 100), (2, 140)] none (1/20) 1 100 rfl
    (by with_unfolding_all decide)

/-! ## The outlier set is reset on every detection call -/

/-- C5: the outlier set stored by `identify_outliers` depends only on the
DataFrame and the tolerance, never on the previously stored outliers:
repeating a call changes nothing, a call with a new tolerance gives
exactly what a first call with that tolerance would have given, and two
states sharing a DataFrame store the same outliers. -/
theorem identify_outliers_reset_recompute :
    (∀ (s : SOState) (t u : ℚ),
        identify_outliers (identify_outliers s t) t = identify_outliers s t
        ∧ identify_outliers (identify_outliers s t) u = identify_outliers s u)
    ∧ (∀ (s1 s2 : SOState) (t : ℚ), s1.df = s2.df →
        (identify_outliers s1 t).outliers = (identify_outliers s2 t).outliers) := by
  constructor
  · exact fun s t u => ⟨rfl, rfl⟩
  · intro s1 s2 t h
    simp only [identify_outliers]
    rw [h]

/-- Witness for C5: a state with a stale stored outlier list and a fresh
state over the same test DataFrame store identical outliers. -/
theorem identify_outliers_reset_recompute_witness :
    (identify_outliers ⟨outlier_test_df, some [⟨1, 100, none, .nan⟩]⟩ (5/100)).outliers
      = (identify_outliers ⟨outlier_test_df, none⟩ (5/100)).outliers :=
  identify_outliers_reset_recompute.2 ⟨outlier_test_df, some [⟨1, 100, none, .nan⟩]⟩
    ⟨outlier_test_df, none⟩ (5/100) rfl

/-! ## clean_stock_data -/

/-- C2: for every DataFrame and outlier set produced from it by
`identify_outliers`, `clean_stock_data` returns exactly the rows whose
timestamp is not among the outlier dates, in their original relative
order (a sublist), with unchanged multiplicity for the surviving rows. -/
theorem clean_stock_data_exact :
    ∀ (df : List Row) (o : Option (List Row)) (tol : ℚ) (os : List Row),
      (identify_outliers ⟨df, o⟩ tol).outliers = some os →
      (List.Sublist (clean_stock_data df os) df
      ∧ (∀ r : Row, r ∈ clean_stock_data df os ↔ (r ∈ df ∧ r.date ∉ os.map Row.date))
      ∧ (∀ r : Row, (clean_stock_data df os).count r
          = if r.date ∈ os.map Row.date then 0 else df.count r)) := by
  intro df o tol os _
  have hmemiff : ∀ r : Row, r ∈ clean_stock_data df os ↔
      (r ∈ df ∧ r.date ∉ os.map Row.date) := by
    intro r
    rw [clean_stock_data, List.mem_filter]
    simp [List.any_eq_true, List.mem_map]
  refine ⟨List.filter_sublist _, hmemiff, ?_⟩
  intro r
  by_cases hm : r.date ∈ os.map Row.date
  · rw [if_pos hm]
    exact List.count_eq_zero.mpr (fun hmem => ((hmemiff r).mp hmem).2 hm)
  · rw [if_neg hm]
    refine List.count_filter ?_
    have hfalse : os.any (fun o2 => o2.date == r.date) = false := by
      by_contra hb
      have htrue : os.any (fun o2 => o2.date == r.date) = true := by
        revert hb
        cases os.any (fun o2 => o2.date == r.date) <;> simp
      obtain ⟨o2, ho2, hdate⟩ := List.any_eq_true.mp htrue
      exact hm (List.mem_map.mpr ⟨o2, ho2, beq_iff_eq.mp hdate⟩)
    rw [hfalse]
    rfl

/-- Witness for C2: cleaning the test DataFrame with the outliers its own
detection call stored yields a sublist of the DataFrame. -/
theorem clean_stock_data_exact_witness :
    List.Sublist
      (clean_stock_data outlier_test_df
        ((identify_outliers ⟨outlier_test_df, none⟩ (5/100)).outliers.getD []))
      outlier_test_df :=
  (clean_stock_data_exact outlier_test_df none (5/100) _ rfl).1

/-- C10: removal in `clean_stock_data` is by membership of the row's index
value among the outlier index values, not by row identity: every row whose
timestamp equals a flagged timestamp is dropped, including a non-flagged
duplicate; concretely, with two distinct rows at timestamp 4 and only one
of them in the outlier set, both are removed. -/
theorem clean_removes_all_rows_of_flagged_timestamp :
    (∀ (df os : List Row) (r : Row), r ∈ df → (∃ o2 ∈ os, o2.date = r.date) →
        r ∉ clean_stock_data df os)
    ∧ clean_stock_data
        [⟨4, 140, none, .nan⟩, ⟨4, 150, none, .nan⟩, ⟨5, 100, none, .nan⟩]
        [⟨4, 140, none, .nan⟩]
      = [⟨5, 100, none, .nan⟩] := by
  constructor
  · intro df os r _ hex hmem
    rw [clean_stock_data, List.mem_filter] at hmem
    obtain ⟨-, hpred⟩ := hmem
    obtain ⟨o2, ho2, hdate⟩ := hex
    have htrue : os.any (fun o3 => o3.date == r.date) = true :=
      List.any_eq_true.mpr ⟨o2, ho2, beq_iff_eq.mpr hdate⟩
    rw [htrue] at hpred
    exact Bool.noConfusion hpred
  · with_unfolding_all decide

/-- Witness for C10: the non-flagged duplicate row at timestamp 4 is not
in the cleaned data. -/
theorem clean_removes_all_rows_of_flagged_timestamp_witness :
    (⟨4, 150, none, .nan⟩ : Row) ∉ clean_stock_data
        [⟨4, 140, none, .nan⟩, ⟨4, 150, none, .nan⟩, ⟨5, 100, none, .nan⟩]
        [⟨4, 140, none, .nan⟩] :=
  clean_removes_all_rows_of_flagged_timestamp.1
    [⟨4, 140, none, .nan⟩, ⟨4, 150, none, .nan⟩, ⟨5, 100, none, .nan⟩]
    [⟨4, 140, none, .nan⟩] ⟨4, 150, none, .nan⟩
    (by simp) ⟨⟨4, 140, none, .nan⟩, by simp, rfl⟩

/-! ## read_csv: schema validation -/

/-- One step of Python `sorted`: insert a string into a sorted list. -/
def insertSorted (a : String) : List String → List String
  | [] => [a]
  | b :: t => if a ≤ b then a :: b :: t else b :: insertSorted a t

/-- Python `sorted` on a list of strings (insertion sort). -/
def sortStrings : List String → List String
  | [] => []
  | a :: t => insertSorted a (sortStrings t)

/-- The column check of `read_csv`, on the loaded DataFrame's column
names: if `"Date" not in columns or "Price" not in columns`, the missing
members of `{"Date", "Price"}` are sorted, joined with `", "` and reported
in the raised exception's message; otherwise the load succeeds. -/
def read_csv_check (cols : List String) : Except String Unit :=
  if !(cols.contains "Date") || !(cols.contains "Price") then
    Except.error ("Column(s) '"
      ++ String.intercalate ", "
          (sortStrings (["Date", "Price"].filter (fun c => !(cols.contains c))))
      ++ "' is/are missing from df")
  else Except.ok ()

/-- C6: loading fails exactly when the Date column, the Price column or
both are missing, and the error message names exactly the missing column
set, alphabetically sorted and comma-joined; with both columns present no
error is raised. -/
theorem read_csv_schema_check :
    (∀ cols : List String,
        read_csv_check cols = Except.ok () ↔ ("Date" ∈ cols ∧ "Price" ∈ cols))
    ∧ (∀ cols : List String, "Date" ∉ cols → "Price" ∉ cols →
        read_csv_check cols
          = Except.error "Column(s) 'Date, Price' is/are missing from df")
    ∧ (∀ cols : List String, "Date" ∉ cols → "Price" ∈ cols →
        read_csv_check cols
          = Except.error "Column(s) 'Date' is/are missing from df")
    ∧ (∀ cols : List String, "Date" ∈ cols → "Price" ∉ cols →
        read_csv_check cols
          = Except.error "Column(s) 'Price' is/are missing from df") := by
  refine ⟨?_, ?_, ?_, ?_⟩
  · intro cols
    constructor
    · intro h
      by_contra hmiss
      rw [Decidable.not_and_iff_or_not] at hmiss
      rcases hmiss with hD | hP
      · rw [read_csv_check, if_pos (by simp [hD])] at h
        exact Except.noConfusion h
      · rw [read_csv_check, if_pos (by simp [hP])] at h
        exact Except.noConfusion h
    · intro ⟨hD, hP⟩
      rw [read_csv_check, if_neg (by simp [hD, hP])]
  · intro cols hD hP
    have hDb : cols.contains "Date" = false := by simp [hD]
    have hPb : cols.contains "Price" = false := by simp [hP]
    rw [read_csv_check, if_pos (by simp only [hDb, Bool.not_false, Bool.true_or])]
    simp only [List.filter_cons, List.filter_nil, hDb, hPb]
    congr 1
    all_goals with_unfolding_all decide
  · intro cols hD hP
    have hDb : cols.contains "Date" = false := by simp [hD]
    have hPb : cols.contains "Price" = true := by simp [hP]
    rw [read_csv_check, if_pos (by simp only [hDb, Bool.not_false, Bool.true_or])]
    simp only [List.filter_cons, List.filter_nil, hDb, hPb]
    congr 1
  · intro cols hD hP
    have hDb : cols.contains "Date" = true := by simp [hD]
    have hPb : cols.contains "Price" = false := by simp [hP]
    rw [read_csv_check, if_pos (by simp only [hPb, Bool.not_false, Bool.or_true])]
    simp only [List.filter_cons, List.filter_nil, hDb, hPb]
    congr 1

/-- Witness for C6: the three missing-column shapes of the repository's
unit tests, and a successful load. -/
theorem read_csv_schema_check_witness :
    read_csv_check ["Time", "Close"]
        = Except.error "Column(s) 'Date, Price' is/are missing from df"
    ∧ read_csv_check ["Price", "Time"]
        = Except.error "Column(s) 'Date' is/are missing from df"
    ∧ read_csv_check ["Close", "Date"]
        = Except.error "Column(s) 'Price' is/are missing from df"
    ∧ read_csv_check ["Date", "Price"] = Except.ok () :=
  ⟨read_csv_schema_check.2.1 ["Time", "Close"]
      (by with_unfolding_all decide) (by with_unfolding_all decide),
   read_csv_schema_check.2.2.1 ["Price", "Time"]
      (by with_unfolding_all decide) (by with_unfolding_all decide),
   read_csv_schema_check.2.2.2 ["Close", "Date"]
      (by with_unfolding_all decide) (by with_unfolding_all decide),
   (read_csv_schema_check.1 ["Date", "Price"]).mpr
      ⟨by with_unfolding_all decide, by with_unfolding_all decide⟩⟩

/-! ## set_df_index_to_date -/

/-- The Date column before indexing: either already of dtype
`datetime64[ns]` (canonical dates, modelled as integers) or raw strings. -/
inductive DateCol where
  | datetimes (ds : List ℤ) : DateCol
  | strings (ss : List String) : DateCol

/-- `set_df_index_to_date`: when the Date column is not already datetime,
convert it with the `to_datetime` collaborator (pandas `pd.to_datetime`
with format `%d/%m/%Y`, passed as a parameter; `none` models its
`ValueError`); any failure raises the format exception, otherwise the
converted column becomes the index, pairing each date with its price. -/
def set_df_index_to_date (to_datetime : String → Option ℤ) :
    DateCol → List ℚ → Except String (List (ℤ × ℚ))
  | .datetimes ds, prices => Except.ok (ds.zip prices)
  | .strings ss, prices =>
    match ss.mapM to_datetime with
    | some ds => Except.ok (ds.zip prices)
    | none => Except.error "Date format does not match '%d/%m/%Y'"

/-- `mapM` over `Option` fails when any element fails. -/
theorem mapM_none_of_mem_none {α β : Type} (f : α → Option β) (l : List α)
    (h : ∃ a ∈ l, f a = none) : l.mapM f = none := by
  induction l with
  | nil => simp at h
  | cons a t ih =>
    rw [List.mapM_cons]
    obtain ⟨b, hb, hfb⟩ := h
    rcases List.mem_cons.mp hb with heq | hmem
    · subst heq
      rw [hfb]
      rfl
    · cases hfa : f a with
      | none => rfl
      | some b2 =>
        rw [ih ⟨b, hmem, hfb⟩]
        rfl

/-- Modelled from the spec: the pandas `to_datetime` collaborator for the
fixed day/month/year pattern `%d/%m/%Y` (the call itself is library code,
not in the repository): slash-separated numeric day, month and four-digit
year fields with range checks; `none` models the `ValueError` pandas
raises on a non-conforming string. Dates map injectively to integers. -/
def parse_ddmmyyyy (s : String) : Option ℤ :=
  match (s.data.foldr
      (fun c (acc : List (List Char)) =>
        if c == '/' then [] :: acc
        else match acc with
          | [] => [[c]]
          | h :: r => (c :: h) :: r) [[]]) with
  | [d, m, y] =>
    match digitsToNat d, digitsToNat m, digitsToNat y with
    | some dn, some mn, some yn =>
      if 1 ≤ dn ∧ dn ≤ 31 ∧ 1 ≤ mn ∧ mn ≤ 12 ∧ y.length = 4 then
        some (Int.ofNat (yn * 10000 + mn * 100 + dn))
      else none
    | _, _, _ => none
  | _ => none
where
  /-- A nonempty all-digit character list read as a number. -/
  digitsToNat (cs : List Char) : Option ℕ :=
    if cs.isEmpty then none
    else cs.foldl
      (fun acc c => acc.bind (fun n =>
        if c.isDigit then some (10 * n + (c.toNat - 48)) else none))
      (some 0)

/-- C7: when the Date column holds strings and any of them fails to parse
against the day/month/year pattern, indexing fails with the format error
naming the expected pattern, whatever parser the date-time collaborator
is; and a column already of datetime dtype is indexed without parsing. -/
theorem set_df_index_format_error :
    (∀ (to_datetime : String → Option ℤ) (ss : List String) (prices : List ℚ),
        (∃ s0 ∈ ss, to_datetime s0 = none) →
        set_df_index_to_date to_datetime (.strings ss) prices
          = Except.error "Date format does not match '%d/%m/%Y'")
    ∧ (∀ (to_datetime : String → Option ℤ) (ds : List ℤ) (prices : List ℚ),
        set_df_index_to_date to_datetime (.datetimes ds) prices
          = Except.ok (ds.zip prices)) := by
  constructor
  · intro f ss ps h
    rw [set_df_index_to_date, mapM_none_of_mem_none f ss h]
  · intro f ds ps
    rfl

/-- Witness for C7: ISO-formatted date strings (as in the repository's
unit test) do not parse as day/month/year, so indexing raises the format
error. -/
theorem set_df_index_format_error_witness :
    set_df_index_to_date parse_ddmmyyyy
        (.strings ["2021-09-20", "2021-09-21", "2021-09-22"]) [600, 800, 1200]
      = Except.error "Date format does not match '%d/%m/%Y'" :=
  set_df_index_format_error.1 parse_ddmmyyyy
    ["2021-09-20", "2021-09-21", "2021-09-22"] [600, 800, 1200]
    ⟨"2021-09-20", by simp, by with_unfolding_all decide⟩

/-! ## write_cleaned_data_to_csv: the output path -/

/-- `os.path.basename`: the part of the path after the last slash
(the whole path when it has no slash). Paths are character lists. -/
def basename (p : List Char) : List Char :=
  (p.reverse.takeWhile (fun c => !(c == '/'))).reverse

/-- The recursion of Python `str.replace`, structured on a fuel argument
so that it evaluates by reduction: at each position, if the pattern
matches there the replacement is emitted and the match consumed,
otherwise one character is copied; an empty pattern matches before every
character and at the end, as in Python. Each step consumes at least one
character when the pattern is nonempty, so fuel `s.length` suffices. -/
def pyReplaceAux (rep pat : List Char) : ℕ → List Char → List Char
  | _, [] => if pat.isEmpty then rep else []
  | 0, s => s
  | fuel + 1, c :: rest =>
    if pat.isEmpty then rep ++ c :: pyReplaceAux rep pat fuel rest
    else if pat.isPrefixOf (c :: rest) then
      rep ++ pyReplaceAux rep pat fuel ((c :: rest).drop pat.length)
    else c :: pyReplaceAux rep pat fuel rest

/-- Python `str.replace(pat, rep)`: every non-overlapping occurrence of
`pat` in `s`, scanned left to right, is replaced by `rep`. -/
def pyReplace (s pat rep : List Char) : List Char :=
  pyReplaceAux rep pat s.length s

/-- `write_cleaned_data_to_csv`'s output path:
`old_basename = os.path.basename(self.csv_path)`;
`basename = "Cleaned_" + old_basename`;
`self.out_path = self.csv_path.replace(old_basename, basename)`. -/
def write_out_path (csv_path : List Char) : List Char :=
  let old_basename := basename csv_path
  let cleaned_basename := "Cleaned_".data ++ old_basename
  pyReplace csv_path old_basename cleaned_basename

/-- A list is a Boolean prefix of itself. -/
theorem isPrefixOf_self (l : List Char) : l.isPrefixOf l = true := by
  induction l with
  | nil => rfl
  | cons a t ih => simp [List.isPrefixOf, ih]

/-- Replacing a pattern that occurs only as the final segment of a string
rewrites exactly that final segment. -/
theorem pyReplaceAux_append (rep pat : List Char) (hpat : pat ≠ []) :
    ∀ (pre : List Char),
      (∀ i, i < pre.length → pat.isPrefixOf ((pre ++ pat).drop i) = false) →
      pyReplaceAux rep pat (pre ++ pat).length (pre ++ pat) = pre ++ rep := by
  intro pre
  induction pre with
  | nil =>
    intro _
    cases pat with
    | nil => exact absurd rfl hpat
    | cons c t =>
      show pyReplaceAux rep (c :: t) (t.length + 1) (c :: t) = rep
      rw [pyReplaceAux]
      rw [if_neg (by simp), if_pos (isPrefixOf_self (c :: t))]
      rw [show (c :: t).drop (c :: t).length = [] from List.drop_length _]
      rw [pyReplaceAux]
      rw [if_neg (by simp)]
      simp
  | cons c pre ih =>
    intro hocc
    have h0 : pat.isPrefixOf (c :: (pre ++ pat)) = false := by
      have := hocc 0 (by simp)
      simpa using this
    have hpe : pat.isEmpty = false := by
      cases pat with
      | nil => exact absurd rfl hpat
      | cons a b => rfl
    show pyReplaceAux rep pat ((pre ++ pat).length + 1) (c :: (pre ++ pat))
        = c :: (pre ++ rep)
    rw [pyReplaceAux]
    rw [if_neg (by simp [hpe]), if_neg (by simp [h0])]
    refine congrArg (c :: ·) (ih ?_)
    intro i hi
    have := hocc (i + 1) (by simpa using hi)
    simpa using this

/-- C9 counterexample: for the input path `ab/ab`, the code writes to
`Cleaned_ab/Cleaned_ab` — `str.replace` also rewrites the occurrence of
the basename inside the directory part — not to the claimed `ab/Cleaned_ab`
in the input's own directory. -/
theorem write_out_path_counterexample :
    write_out_path "ab/ab".data = "Cleaned_ab/Cleaned_ab".data
    ∧ write_out_path "ab/ab".data ≠ "ab/Cleaned_ab".data := by
  constructor <;> with_unfolding_all decide

/-- C9 amended: for every input path splitting as `pre ++ pat` where `pat`
is its (nonempty) basename and `pat` occurs nowhere in the path before its
final position, the output path is the input path with only the final
basename replaced by `Cleaned_` ++ basename — the same directory, the
filename prefixed. -/
theorem write_out_path_amended :
    ∀ (pre pat : List Char), pat ≠ [] →
      basename (pre ++ pat) = pat →
      (∀ i, i < pre.length → pat.isPrefixOf ((pre ++ pat).drop i) = false) →
      write_out_path (pre ++ pat) = pre ++ ("Cleaned_".data ++ pat) := by
  intro pre pat hpat hbase hocc
  show pyReplace (pre ++ pat) (basename (pre ++ pat))
      ("Cleaned_".data ++ basename (pre ++ pat)) = pre ++ ("Cleaned_".data ++ pat)
  rw [hbase, pyReplace]
  exact pyReplaceAux_append _ pat hpat pre hocc

/-- Witness for C9 amended, at the path of the repository's data file:
`data/Outliers.csv` is written to `data/Cleaned_Outliers.csv`. -/
theorem write_out_path_amended_witness :
    write_out_path ("data/".data ++ "Outliers.csv".data)
      = "data/".data ++ ("Cleaned_".data ++ "Outliers.csv".data) :=
  write_out_path_amended "data/".data "Outliers.csv".data
    (by with_unfolding_all decide)
    (by with_unfolding_all decide)
    (by with_unfolding_all decide)

end StockOutlier
